import Mathlib

/-!
Verification of the floating-hero-waves audio-transcription pipeline.

The development shallowly embeds the pieces of the repository that the
claims are about:

* the transcript reconciler of `src/components/TextTranscription.tsx`
  (the `setCombinedText` updater, first revision in the file, with the
  100-character overlap window and the sentence-restart branch);
* the `RateLimiter` class of `src/utils/audio/RateLimiter.ts`;
* the `AudioProcessor` class of `src/utils/audio/AudioProcessor.ts`
  (first revision: the one with `processingError` handling);
* the `startRecording` / `stopRecording` lifecycle of the `AudioRecorder`
  class (`src/unnamed/part_002`, lines 439-729).

Strings are embedded as `List Char` (all behaviour involved is
code-unit-wise, so this is faithful for the scripts exercised here).
Browser `Blob`s are embedded by their byte size plus an identity tag.
Wall-clock time (`Date.now()`) is passed explicitly as an `Int`
parameter.  Network responses of the Supabase `transcribe` function are
embedded as a record of the fields the code consults.
-/

/-- JavaScript `s.includes(sub)`: `sub` occurs contiguously inside `s`. -/
def jsIncludes (s sub : List Char) : Bool :=
  match s with
  | [] => sub.isEmpty
  | _ :: rest => sub.isPrefixOf s || jsIncludes rest sub

/-- The characters of the regex class `[.!?]` used by the sentence split in
`TextTranscription.tsx` line 66. -/
def isSentencePunct (c : Char) : Bool :=
  c = '.' || c = '!' || c = '?'

/-- JavaScript `\s` for the characters that occur in this code base
(ASCII whitespace). -/
def isJsWhitespace (c : Char) : Bool :=
  c = ' ' || c = '\t' || c = '\n' || c = '\r' || c = '\x0b' || c = '\x0c'

/-- Model of `prev.split(/[.!?]+\s*/g)` (TextTranscription.tsx line 66):
maximal-munch scan for separator runs (one or more of `.!?` followed by
any whitespace), the pieces between matches are returned in order, empty
pieces included.  `mode` is 0 while inside a piece, 1 while consuming the
punctuation of a separator, 2 while consuming its trailing whitespace;
`acc` is the current piece reversed and `done` the finished pieces
reversed. -/
def splitSentenceSep (mode : Nat) (acc : List Char) (done : List (List Char)) :
    List Char → List (List Char)
  | [] => (acc.reverse :: done).reverse
  | c :: rest =>
    if mode = 0 then
      if isSentencePunct c then splitSentenceSep 1 [] (acc.reverse :: done) rest
      else splitSentenceSep 0 (c :: acc) done rest
    else if mode = 1 then
      if isSentencePunct c then splitSentenceSep 1 [] done rest
      else if isJsWhitespace c then splitSentenceSep 2 [] done rest
      else splitSentenceSep 0 [c] done rest
    else
      if isJsWhitespace c then splitSentenceSep 2 [] done rest
      else if isSentencePunct c then splitSentenceSep 1 [] ([] :: done) rest
      else splitSentenceSep 0 [c] done rest

/-- The sentence list of TextTranscription.tsx line 66:
`prev.split(...).filter(s => s.length > 10)` with the separator regex above. -/
def sentencesOf (prev : List Char) : List (List Char) :=
  (splitSentenceSep 0 [] [] prev).filter (fun s => decide (s.length > 10))

/-- The loop of TextTranscription.tsx lines 48-57, with the loop variable
counting down from `n`: returns the first (hence largest) `k ≤ n` with
`k ≥ 5` such that the last `k` characters of `prev` equal the first `k`
characters of `text`, and `0` if there is none. -/
def scanOverlap (prev text : List Char) : Nat → Nat
  | 0 => 0
  | k + 1 =>
    if k + 1 < 5 then 0
    else if prev.drop (prev.length - (k + 1)) = text.take (k + 1) then k + 1
    else scanOverlap prev text k

/-- `longestOverlapLength` as computed by TextTranscription.tsx lines 44-57:
the scan starts at `Math.min(100, Math.min(prev.length, text.length))`. -/
def findOverlap (prev text : List Char) : Nat :=
  scanOverlap prev text (min 100 (min prev.length text.length))

/-- The `setCombinedText` updater of `TextTranscription.tsx` (first revision,
lines 17-77), as a pure function of the previous accumulated transcript and the
incoming fragment.  Branches in source order: duplicate (line 19), first
fragment (line 25), complete update (line 31), regression (line 38),
suffix-overlap join (lines 44-62), sentence restart (lines 66-72), append with
a space (line 76). -/
def mergeTranscript (prev text : List Char) : List Char :=
  if text = prev then prev
  else if prev = [] then text
  else if jsIncludes text prev then text
  else if jsIncludes prev text ∧ text.length < prev.length then prev
  else
    let longestOverlapLength := findOverlap prev text
    if 0 < longestOverlapLength then prev ++ text.drop longestOverlapLength
    else if (sentencesOf prev).any (fun s => s.isPrefixOf text) then text
    else prev ++ ' ' :: text

example : mergeTranscript "hello world".toList "world peace".toList
    = "hello world peace".toList := by decide

example : mergeTranscript "a fully formed sentence.".toList "a fully".toList
    = "a fully formed sentence.".toList := by decide

example : mergeTranscript "hello".toList "hello there".toList
    = "hello there".toList := by decide

example : mergeTranscript "abcdefghijklm. and more stuff here".toList
    "abcdefghijklmQ".toList = "abcdefghijklmQ".toList := by decide

theorem isPrefixOf_length_le : ∀ (l₁ l₂ : List Char), l₁.isPrefixOf l₂ = true →
    l₁.length ≤ l₂.length
  | [], _, _ => by simp
  | _ :: _, [], h => by simp [List.isPrefixOf] at h
  | a :: t, b :: t2, h => by
    simp only [List.isPrefixOf, Bool.and_eq_true] at h
    simpa using isPrefixOf_length_le t t2 h.2

theorem jsIncludes_length_le : ∀ (s sub : List Char), jsIncludes s sub = true →
    sub.length ≤ s.length
  | [], sub, h => by
    simp only [jsIncludes, List.isEmpty_iff] at h
    simp [h]
  | c :: rest, sub, h => by
    simp only [jsIncludes, Bool.or_eq_true] at h
    rcases h with h | h
    · exact isPrefixOf_length_le _ _ h
    · exact le_trans (jsIncludes_length_le rest sub h) (by simp)

theorem scanOverlap_spec (prev text : List Char) :
    ∀ n, 0 < scanOverlap prev text n →
      5 ≤ scanOverlap prev text n ∧ scanOverlap prev text n ≤ n ∧
      prev.drop (prev.length - scanOverlap prev text n)
        = text.take (scanOverlap prev text n) := by
  intro n
  induction n with
  | zero => intro h; simp [scanOverlap] at h
  | succ n ih =>
    intro h
    by_cases h5 : n + 1 < 5
    · rw [scanOverlap, if_pos h5] at h; omega
    · by_cases hm : prev.drop (prev.length - (n + 1)) = text.take (n + 1)
      · rw [scanOverlap, if_neg h5, if_pos hm]
        exact ⟨by omega, le_refl _, hm⟩
      · rw [scanOverlap, if_neg h5, if_neg hm] at h ⊢
        have h3 := ih h
        exact ⟨h3.1, by omega, h3.2.2⟩

theorem scanOverlap_ge (prev text : List Char) :
    ∀ n j, 5 ≤ j → j ≤ n → prev.drop (prev.length - j) = text.take j →
      j ≤ scanOverlap prev text n := by
  intro n
  induction n with
  | zero => intro j h5 hj _; omega
  | succ n ih =>
    intro j h5 hj hm
    by_cases hlt : n + 1 < 5
    · omega
    · by_cases hmatch : prev.drop (prev.length - (n + 1)) = text.take (n + 1)
      · rw [scanOverlap, if_neg hlt, if_pos hmatch]; omega
      · rw [scanOverlap, if_neg hlt, if_neg hmatch]
        have hj' : j ≤ n := by
          rcases Nat.lt_or_ge j (n + 1) with h | h
          · omega
          · exfalso
            have hjeq : j = n + 1 := by omega
            subst hjeq
            exact hmatch hm
        exact ih j h5 hj' hm

/-- C9: merging a fragment identical to the accumulated transcript is the
identity: for every non-empty `s`, `merge(s, s) = s` (the duplicate branch of
TextTranscription.tsx lines 19-22). -/
theorem C9_merge_duplicate_identity (s : List Char) (h : s ≠ []) :
    mergeTranscript s s = s := by
  simp [mergeTranscript]

theorem C9_merge_duplicate_identity_witness :
    ("hello there".toList ≠ ([] : List Char)) ∧
    mergeTranscript "hello there".toList "hello there".toList
      = "hello there".toList :=
  ⟨by decide, C9_merge_duplicate_identity "hello there".toList (by decide)⟩

/-- C8: when `previous` contains `incoming` as a substring and is strictly
longer, the merge returns `previous` unchanged (the regression branch of
TextTranscription.tsx lines 36-41). -/
theorem C8_merge_regression (prev text : List Char)
    (hsub : jsIncludes prev text = true) (hlen : text.length < prev.length) :
    mergeTranscript prev text = prev := by
  have hne : text ≠ prev := by
    intro h
    subst h
    omega
  have hp : prev ≠ [] := by
    intro h
    subst h
    simp at hlen
  have h3 : ¬ (jsIncludes text prev = true) := by
    intro h
    have := jsIncludes_length_le text prev h
    omega
  rw [mergeTranscript, if_neg hne, if_neg hp, if_neg h3, if_pos ⟨hsub, hlen⟩]

theorem C8_merge_regression_witness :
    jsIncludes "a fully formed sentence.".toList "a fully".toList = true ∧
    mergeTranscript "a fully formed sentence.".toList "a fully".toList
      = "a fully formed sentence.".toList :=
  ⟨by decide,
   C8_merge_regression "a fully formed sentence.".toList "a fully".toList
     (by decide) (by decide)⟩

/-- C1: for non-empty `previous` and `incoming` with no identity or
containment (hence no regression) relationship, whenever some `k` in the scan
window (at most 100, at least 5) matches the last `k` characters of `previous`
against the first `k` characters of `incoming`, the merge picks the longest
such `k` and returns `previous ++ incoming[k:]` (TextTranscription.tsx lines
44-62); concretely, `merge("hello world", "world peace") = "hello world
peace"`. -/
theorem C1_merge_longest_overlap (prev text : List Char)
    (hne : text ≠ prev) (hp : prev ≠ []) (ht : text ≠ [])
    (h1 : jsIncludes text prev = false) (h2 : jsIncludes prev text = false)
    (k : Nat) (hk5 : 5 ≤ k) (hkw : k ≤ min 100 (min prev.length text.length))
    (hkm : prev.drop (prev.length - k) = text.take k) :
    5 ≤ findOverlap prev text ∧
    prev.drop (prev.length - findOverlap prev text)
      = text.take (findOverlap prev text) ∧
    (∀ j, 5 ≤ j → j ≤ min 100 (min prev.length text.length) →
      prev.drop (prev.length - j) = text.take j → j ≤ findOverlap prev text) ∧
    mergeTranscript prev text = prev ++ text.drop (findOverlap prev text) ∧
    mergeTranscript "hello world".toList "world peace".toList
      = "hello world peace".toList := by
  have hge : k ≤ findOverlap prev text :=
    scanOverlap_ge prev text (min 100 (min prev.length text.length)) k hk5 hkw hkm
  have hpos : 0 < findOverlap prev text := by omega
  have hspec := scanOverlap_spec prev text (min 100 (min prev.length text.length)) hpos
  refine ⟨by omega, hspec.2.2, ?_, ?_, by decide⟩
  · intro j h5 hj hm
    exact scanOverlap_ge prev text _ j h5 hj hm
  · have h1' : ¬ (jsIncludes text prev = true) := by simp [h1]
    have h2' : ¬ (jsIncludes prev text = true ∧ text.length < prev.length) := by
      simp [h2]
    rw [mergeTranscript, if_neg hne, if_neg hp, if_neg h1', if_neg h2']
    simp only [if_pos hpos]

theorem C1_merge_longest_overlap_witness :
    ("hello world".toList ≠ "world peace".toList) ∧
    (5 ≤ "hello world".toList.length) ∧
    mergeTranscript "hello world".toList "world peace".toList
      = "hello world".toList ++ "world peace".toList.drop
          (findOverlap "hello world".toList "world peace".toList) := by
  have h := C1_merge_longest_overlap "hello world".toList "world peace".toList
    (by decide) (by decide) (by decide) (by decide) (by decide)
    5 (by decide) (by decide) (by decide)
  exact ⟨by decide, by decide, h.2.2.2.1⟩

/-- C2 counterexample: the claim says `len(merge(s, t)) ≥ len(s)` for every
`s` and non-empty `t`, but the sentence-restart branch of
TextTranscription.tsx lines 64-72 returns the bare incoming text, which can be
shorter: with `s = "abcdefghijklm. and more stuff here"` (34 characters) and
`t = "abcdefghijklmQ"` (14 characters), the merge returns `t`. -/
theorem C2_cex_merge_shrinks :
    ("abcdefghijklmQ".toList ≠ ([] : List Char)) ∧
    mergeTranscript "abcdefghijklm. and more stuff here".toList
        "abcdefghijklmQ".toList = "abcdefghijklmQ".toList ∧
    (mergeTranscript "abcdefghijklm. and more stuff here".toList
        "abcdefghijklmQ".toList).length
      < "abcdefghijklm. and more stuff here".toList.length := by decide

/-- C2 amended: `len(merge(s, t)) ≥ len(s)` holds for every `s` and non-empty
`t` unless the sentence-restart rule applies, that is, provided no sentence of
`s` longer than 10 characters (splitting `s` on runs of `.!?` plus trailing
whitespace) is a prefix of `t`; in the excluded case the merge returns `t`,
which may be shorter than `s`. -/
theorem C2_amended_merge_no_shrink (s t : List Char) (ht : t ≠ [])
    (hsent : (sentencesOf s).any (fun x => x.isPrefixOf t) = false) :
    s.length ≤ (mergeTranscript s t).length := by
  rw [mergeTranscript]
  by_cases h1 : t = s
  · rw [if_pos h1]
  · rw [if_neg h1]
    by_cases h2 : s = []
    · rw [if_pos h2]
      simp [h2]
    · rw [if_neg h2]
      by_cases h3 : jsIncludes t s = true
      · rw [if_pos h3]
        exact jsIncludes_length_le t s h3
      · rw [if_neg h3]
        by_cases h4 : jsIncludes s t = true ∧ t.length < s.length
        · rw [if_pos h4]
        · rw [if_neg h4]
          simp only
          by_cases h5 : 0 < findOverlap s t
          · rw [if_pos h5]
            have hle := scanOverlap_spec s t (min 100 (min s.length t.length)) h5
            have : findOverlap s t ≤ t.length := by
              have h6 := hle.2.1
              have h7 : min 100 (min s.length t.length) ≤ t.length := by omega
              exact le_trans h6 h7
            simp only [List.length_append, List.length_drop]
            omega
          · rw [if_neg h5]
            have h6 : ¬ ((sentencesOf s).any (fun x => x.isPrefixOf t) = true) := by
              simp [hsent]
            rw [if_neg h6]
            simp only [List.length_append, List.length_cons]
            omega

theorem C2_amended_merge_no_shrink_witness :
    ("there".toList ≠ ([] : List Char)) ∧
    (sentencesOf "hello".toList).any (fun x => x.isPrefixOf "there".toList)
      = false ∧
    "hello".toList.length ≤ (mergeTranscript "hello".toList "there".toList).length :=
  ⟨by decide, by decide,
   C2_amended_merge_no_shrink "hello".toList "there".toList (by decide) (by decide)⟩

/-- A browser `Blob` as `AudioProcessor` observes it: its byte size, plus a
tag distinguishing chunks captured at different instants. -/
structure Blob where
  size : Nat
  tag : Nat
deriving DecidableEq

/-- Constant from `src/utils/audio/constants.ts` (first revision). -/
def MAX_CHUNKS : Nat := 40

/-- Constant from `src/utils/audio/constants.ts`. -/
def RATE_LIMIT_ERROR_MARKER : List Char := "__RATE_LIMIT_ERROR__".toList

/-- The `RateLimiter` default constructor argument `minBackoffMs = 1000`
(`src/utils/audio/RateLimiter.ts` line 14; `AudioProcessor` constructs
`new RateLimiter()` with the defaults). -/
def minBackoffMs : Nat := 1000

/-- The `RateLimiter` default constructor argument `maxBackoffMs = 10000`. -/
def maxBackoffMs : Nat := 10000

/-- The `RateLimiter` default constructor argument `toastIntervalMs = 10000`. -/
def toastIntervalMs : Int := 10000

/-- The mutable fields of the `RateLimiter` class
(`src/utils/audio/RateLimiter.ts` lines 5-11).  Timestamps are `Date.now()`
values, passed explicitly to each method. -/
structure RateLimiter where
  isRateLimited : Bool
  consecutiveErrors : Nat
  backoffMs : Nat
  lastToastTime : Int
  lastCallTime : Int
deriving DecidableEq

/-- Field initialisers of `RateLimiter` (lines 6-11). -/
def RateLimiter.new : RateLimiter :=
  { isRateLimited := false, consecutiveErrors := 0, backoffMs := 1000,
    lastToastTime := 0, lastCallTime := 0 }

/-- `getBackoffTime()` (lines 29-31). -/
def RateLimiter.getBackoffTime (s : RateLimiter) : Nat := s.backoffMs

/-- `canMakeCall()` (lines 36-42): false while rate limited, otherwise true
once `backoffMs` has elapsed since `lastCallTime`. -/
def RateLimiter.canMakeCall (s : RateLimiter) (now : Int) : Bool :=
  if s.isRateLimited then false
  else decide ((s.backoffMs : Int) ≤ now - s.lastCallTime)

/-- `recordSuccess()` (lines 47-51). -/
def RateLimiter.recordSuccess (s : RateLimiter) (now : Int) : RateLimiter :=
  { s with lastCallTime := now, consecutiveErrors := 0, backoffMs := minBackoffMs }

/-- `recordRateLimitError()` (lines 57-79): bumps the error count, sets the
limited flag, doubles the backoff (capped at `maxBackoffMs`), and returns
whether a user-facing toast should be shown (strictly more than
`toastIntervalMs` since the last one), stamping `lastToastTime` when so.  The
`setTimeout` that later clears the limited flag is modelled separately by
`RateLimiter.clearRateLimitFlag`. -/
def RateLimiter.recordRateLimitError (s : RateLimiter) (now : Int) :
    RateLimiter × Bool :=
  let s1 : RateLimiter :=
    { s with consecutiveErrors := s.consecutiveErrors + 1,
             isRateLimited := true,
             backoffMs := min maxBackoffMs (s.backoffMs * 2) }
  if toastIntervalMs < now - s1.lastToastTime then
    ({ s1 with lastToastTime := now }, true)
  else (s1, false)

/-- The deferred `setTimeout` body of `recordRateLimitError` (lines 65-68). -/
def RateLimiter.clearRateLimitFlag (s : RateLimiter) : RateLimiter :=
  { s with isRateLimited := false }

/-- The response of the `transcribe` edge function as `processAudioChunk`
consults it: the `error.message` string (if `error` was set), `data.statusCode`
and `data.text`. -/
structure TranscribeResponse where
  errMsg : Option (List Char)
  statusCode : Option Nat
  text : Option (List Char)
deriving DecidableEq

/-- The 429 test of AudioProcessor.ts line 149:
`(error && error.message && error.message.includes('429')) ||
(data && data.statusCode === 429)`. -/
def is429 (r : TranscribeResponse) : Bool :=
  (match r.errMsg with
   | some m => jsIncludes m "429".toList
   | none => false) || r.statusCode == some 429

/-- The 400 test of AudioProcessor.ts line 164. -/
def is400 (r : TranscribeResponse) : Bool :=
  (match r.errMsg with
   | some m => jsIncludes m "400".toList
   | none => false) || r.statusCode == some 400

/-- `data.text` under JavaScript truthiness (`if (data?.text)`): an empty
string counts as absent. -/
def dataText (r : TranscribeResponse) : Option (List Char) :=
  match r.text with
  | some t => if t = [] then none else some t
  | none => none

/-- Observable actions of one dispatch cycle. -/
inductive DispatchEvent where
  | callbackInvoked (text : List Char)
  | successRecorded
  | rateLimitErrorRecorded (shouldNotify : Bool)
deriving DecidableEq

/-- The fields of the `AudioProcessor` class
(`src/utils/audio/AudioProcessor.ts` lines 10-21, first revision).
`onTranscriptionCallback` records whether the constructor-injected callback is
non-null; it is fixed at construction and never reassigned. -/
structure AudioProcessor where
  recordedChunks : List Blob
  chunkCounter : Nat
  processingError : Bool
  onTranscriptionCallback : Bool
deriving DecidableEq

/-- The `AudioProcessor` constructor (lines 17-21). -/
def AudioProcessor.new (cb : Bool) : AudioProcessor :=
  { recordedChunks := [], chunkCounter := 0, processingError := false,
    onTranscriptionCallback := cb }

/-- `addChunk(chunk)` (lines 26-33): always bumps `chunkCounter`, appends only
chunks of positive size, and never evicts anything. -/
def AudioProcessor.addChunk (s : AudioProcessor) (chunk : Blob) : AudioProcessor :=
  let s1 := { s with chunkCounter := s.chunkCounter + 1 }
  if 0 < chunk.size then
    { s1 with recordedChunks := s1.recordedChunks ++ [chunk] }
  else s1

/-- `getChunkCount()` (lines 38-40). -/
def AudioProcessor.getChunkCount (s : AudioProcessor) : Nat :=
  s.recordedChunks.length

/-- `clearChunks()` (lines 45-49). -/
def AudioProcessor.clearChunks (s : AudioProcessor) : AudioProcessor :=
  { s with recordedChunks := [], chunkCounter := 0, processingError := false }

/-- `addChunk` applied to a whole capture sequence in order. -/
def addAll (s : AudioProcessor) (blobs : List Blob) : AudioProcessor :=
  blobs.foldl AudioProcessor.addChunk s

/-- The tail of `processTranscriptionResult` (lines 253-256): invoke the
callback with the text, when the callback exists and the text is present.
The database persistence in that method has no effect on anything modelled
here and is omitted. -/
def forwardText (cb : Bool) (t? : Option (List Char)) : List DispatchEvent :=
  match t? with
  | some t => if cb then [DispatchEvent.callbackInvoked t] else []
  | none => []

/-- `processAudioChunk(chunk)` (lines 101-205), as a function of the response
of the `transcribe` call: a 429 response records a rate-limit error and, when
that returns true and the callback exists, invokes the callback with the
sentinel; a 400 response sets `processingError`; any other error still
forwards `data.text` when present (lines 175-185); a success forwards
`data.text` when non-empty.  The `catch` path (a thrown exception before the
response arrives) is outside this model. -/
def AudioProcessor.processAudioChunk (s : AudioProcessor) (rl : RateLimiter)
    (now : Int) (r : TranscribeResponse) :
    AudioProcessor × RateLimiter × List DispatchEvent :=
  if is429 r then
    let res := rl.recordRateLimitError now
    (s, res.1,
      DispatchEvent.rateLimitErrorRecorded res.2 ::
        (if res.2 && s.onTranscriptionCallback then
          [DispatchEvent.callbackInvoked RATE_LIMIT_ERROR_MARKER]
        else []))
  else if is400 r then
    ({ s with processingError := true }, rl, [])
  else if r.errMsg.isSome then
    (s, rl, forwardText s.onTranscriptionCallback (dataText r))
  else
    (s, rl, forwardText s.onTranscriptionCallback (dataText r))

/-- `processChunksIfReady(maxChunks)` (lines 55-96), as a function of the
current time and of the response the remote call will return: skips when the
rate limiter refuses or no chunks are buffered; halves `maxChunks` (floor 5)
and clears `processingError` after a previous error; trims the buffer to the
last `maxChunks` chunks; calls `rateLimiter.recordSuccess()` BEFORE the remote
call, unconditionally; then processes the response. -/
def AudioProcessor.processChunksIfReady (s : AudioProcessor) (rl : RateLimiter)
    (maxChunks : Nat) (now : Int) (r : TranscribeResponse) :
    (AudioProcessor × RateLimiter) × List DispatchEvent × Bool :=
  if rl.canMakeCall now = false then ((s, rl), [], false)
  else if s.recordedChunks.length = 0 then ((s, rl), [], false)
  else
    let mc := if s.processingError then max 5 (maxChunks / 2) else maxChunks
    let s1 := if s.processingError then { s with processingError := false } else s
    let s2 :=
      if mc < s1.recordedChunks.length then
        { s1 with recordedChunks :=
            s1.recordedChunks.drop (s1.recordedChunks.length - mc) }
      else s1
    let rl1 := rl.recordSuccess now
    let out := s2.processAudioChunk rl1 now r
    ((out.1, out.2.1), DispatchEvent.successRecorded :: out.2.2, true)

theorem addAll_recordedChunks (blobs : List Blob) : ∀ (s : AudioProcessor),
    (addAll s blobs).recordedChunks
      = s.recordedChunks ++ blobs.filter (fun b => decide (0 < b.size)) := by
  induction blobs with
  | nil => intro s; simp [addAll]
  | cons b bs ih =>
    intro s
    have h1 : addAll s (b :: bs) = addAll (s.addChunk b) bs := rfl
    rw [h1, ih]
    by_cases h : 0 < b.size
    · simp [AudioProcessor.addChunk, h, List.filter_cons]
    · simp [AudioProcessor.addChunk, h, List.filter_cons]

theorem addAll_processingError (blobs : List Blob) : ∀ (s : AudioProcessor),
    (addAll s blobs).processingError = s.processingError := by
  induction blobs with
  | nil => intro s; rfl
  | cons b bs ih =>
    intro s
    have h1 : addAll s (b :: bs) = addAll (s.addChunk b) bs := rfl
    rw [h1, ih]
    by_cases h : 0 < b.size <;> simp [AudioProcessor.addChunk, h]

theorem processAudioChunk_recordedChunks (s : AudioProcessor) (rl : RateLimiter)
    (now : Int) (r : TranscribeResponse) :
    (s.processAudioChunk rl now r).1.recordedChunks = s.recordedChunks := by
  rw [AudioProcessor.processAudioChunk]
  by_cases h1 : is429 r = true
  · simp [h1]
  · simp only [Bool.not_eq_true] at h1
    by_cases h2 : is400 r = true
    · simp [h1, h2]
    · simp only [Bool.not_eq_true] at h2
      by_cases h3 : r.errMsg.isSome = true <;> simp [h1, h2, h3]

theorem processChunksIfReady_run (s : AudioProcessor) (rl : RateLimiter)
    (maxChunks : Nat) (now : Int) (r : TranscribeResponse)
    (hcan : rl.canMakeCall now = true)
    (hne : ¬ (s.recordedChunks.length = 0)) :
    s.processChunksIfReady rl maxChunks now r
      = (let mc := if s.processingError then max 5 (maxChunks / 2) else maxChunks
         let s1 := if s.processingError then { s with processingError := false } else s
         let s2 :=
           if mc < s1.recordedChunks.length then
             { s1 with recordedChunks :=
                 s1.recordedChunks.drop (s1.recordedChunks.length - mc) }
           else s1
         let out := s2.processAudioChunk (rl.recordSuccess now) now r
         ((out.1, out.2.1), DispatchEvent.successRecorded :: out.2.2, true)) := by
  rw [AudioProcessor.processChunksIfReady, if_neg (by simp [hcan]), if_neg hne]

/-- C3 counterexample: `addChunk` never evicts, so after adding
`MAX_CHUNKS + 5 = 45` non-empty chunks with no intervening dispatch,
`getChunkCount()` is 45, not `MAX_CHUNKS = 40`. -/
theorem C3_cex_addChunk_never_evicts :
    ((addAll (AudioProcessor.new true)
        ((List.range (MAX_CHUNKS + 5)).map (fun i => ⟨i + 1, i⟩))).getChunkCount
      = MAX_CHUNKS + 5) ∧
    ((addAll (AudioProcessor.new true)
        ((List.range (MAX_CHUNKS + 5)).map (fun i => ⟨i + 1, i⟩))).getChunkCount
      ≠ MAX_CHUNKS) := by decide

/-- C3 amended: `addChunk` itself never evicts, so after adding
`maxChunks + 5` non-empty chunks one at a time with no intervening dispatch,
`chunkCount()` equals `maxChunks + 5`; the bound is enforced at dispatch time
instead: `processChunksIfReady` (lines 77-80) trims the buffer to the
`maxChunks` most recent chunks, so after the next dispatch the retained chunks
are exactly the `maxChunks` most recent ones (the oldest 5 are gone). -/
theorem C3_amended_trim_at_dispatch (blobs : List Blob) (maxChunks : Nat)
    (now : Int) (r : TranscribeResponse)
    (hlen : blobs.length = maxChunks + 5)
    (hpos : ∀ b ∈ blobs, 0 < b.size)
    (hnow : (1000 : Int) ≤ now) :
    (addAll (AudioProcessor.new true) blobs).getChunkCount = maxChunks + 5 ∧
    ((addAll (AudioProcessor.new true) blobs).processChunksIfReady
        RateLimiter.new maxChunks now r).1.1.recordedChunks = blobs.drop 5 := by
  have hfilter : blobs.filter (fun b => decide (0 < b.size)) = blobs := by
    apply List.filter_eq_self.mpr
    intro b hb
    exact decide_eq_true (hpos b hb)
  have hchunks : (addAll (AudioProcessor.new true) blobs).recordedChunks = blobs := by
    rw [addAll_recordedChunks, hfilter]
    rfl
  have herr : (addAll (AudioProcessor.new true) blobs).processingError = false := by
    rw [addAll_processingError]
    rfl
  have hcan : RateLimiter.new.canMakeCall now = true := by
    rw [RateLimiter.canMakeCall]
    simp only [RateLimiter.new]
    norm_num
    omega
  have hne : ¬ ((addAll (AudioProcessor.new true) blobs).recordedChunks.length = 0) := by
    rw [hchunks, hlen]
    omega
  constructor
  · rw [AudioProcessor.getChunkCount, hchunks, hlen]
  · rw [processChunksIfReady_run _ _ _ _ _ hcan hne]
    simp only [herr, Bool.false_eq_true, if_false]
    rw [processAudioChunk_recordedChunks]
    have hlt : maxChunks < (addAll (AudioProcessor.new true) blobs).recordedChunks.length := by
      rw [hchunks, hlen]
      omega
    rw [if_pos hlt]
    simp only
    rw [hchunks, hlen]
    congr 1
    omega

theorem C3_amended_trim_at_dispatch_witness :
    (([⟨1, 0⟩, ⟨2, 1⟩, ⟨3, 2⟩, ⟨4, 3⟩, ⟨5, 4⟩, ⟨6, 5⟩, ⟨7, 6⟩, ⟨8, 7⟩] :
        List Blob).length = 3 + 5) ∧
    (addAll (AudioProcessor.new true)
        [⟨1, 0⟩, ⟨2, 1⟩, ⟨3, 2⟩, ⟨4, 3⟩, ⟨5, 4⟩, ⟨6, 5⟩, ⟨7, 6⟩, ⟨8, 7⟩]).getChunkCount
      = 3 + 5 ∧
    ((addAll (AudioProcessor.new true)
        [⟨1, 0⟩, ⟨2, 1⟩, ⟨3, 2⟩, ⟨4, 3⟩, ⟨5, 4⟩, ⟨6, 5⟩, ⟨7, 6⟩, ⟨8, 7⟩]).processChunksIfReady
        RateLimiter.new 3 2000 ⟨none, none, none⟩).1.1.recordedChunks
      = [⟨6, 5⟩, ⟨7, 6⟩, ⟨8, 7⟩] := by
  have h := C3_amended_trim_at_dispatch
    [⟨1, 0⟩, ⟨2, 1⟩, ⟨3, 2⟩, ⟨4, 3⟩, ⟨5, 4⟩, ⟨6, 5⟩, ⟨7, 6⟩, ⟨8, 7⟩] 3 2000
    ⟨none, none, none⟩ (by decide) (by decide) (by decide)
  exact ⟨by decide, h.1, by rw [h.2]; decide⟩

/-- C10: a zero-size chunk leaves the stored chunk list unchanged and only
bumps the diagnostic `chunkCounter` (lines 26-33); consequently, starting from
a cleared state, `getChunkCount()` counts exactly the chunks of positive size
among those added, and a zero-size chunk never enters `recordedChunks` (hence
never contributes to the combined payload built from them). -/
theorem C10_zero_size_chunk (s : AudioProcessor) (chunk : Blob)
    (h : chunk.size = 0) :
    (s.addChunk chunk).recordedChunks = s.recordedChunks ∧
    (s.addChunk chunk).chunkCounter = s.chunkCounter + 1 ∧
    ∀ blobs : List Blob,
      (addAll s.clearChunks blobs).getChunkCount
        = (blobs.filter (fun b => decide (0 < b.size))).length := by
  refine ⟨?_, ?_, ?_⟩
  · rw [AudioProcessor.addChunk]
    have h0 : ¬ (0 < chunk.size) := by omega
    rw [if_neg h0]
  · rw [AudioProcessor.addChunk]
    have h0 : ¬ (0 < chunk.size) := by omega
    rw [if_neg h0]
  · intro blobs
    rw [AudioProcessor.getChunkCount, addAll_recordedChunks]
    simp [AudioProcessor.clearChunks]

theorem C10_zero_size_chunk_witness :
    ((⟨0, 9⟩ : Blob).size = 0) ∧
    ((AudioProcessor.new true).addChunk ⟨0, 9⟩).recordedChunks = [] ∧
    ((AudioProcessor.new true).addChunk ⟨0, 9⟩).chunkCounter = 1 ∧
    (addAll (AudioProcessor.new true).clearChunks
        [⟨0, 1⟩, ⟨3, 2⟩, ⟨0, 3⟩, ⟨2, 4⟩]).getChunkCount = 2 := by
  have h := C10_zero_size_chunk (AudioProcessor.new true) ⟨0, 9⟩ rfl
  refine ⟨rfl, h.1, h.2.1, ?_⟩
  have h2 := h.2.2 [⟨0, 1⟩, ⟨3, 2⟩, ⟨0, 3⟩, ⟨2, 4⟩]
  exact h2.trans (by decide)

/-- `recordRateLimitError` consecutively applied at the given call times. -/
def iterateRateLimitErrors (s : RateLimiter) : List Int → RateLimiter
  | [] => s
  | t :: ts => iterateRateLimitErrors (s.recordRateLimitError t).1 ts

theorem recordRateLimitError_backoffMs (s : RateLimiter) (now : Int) :
    (s.recordRateLimitError now).1.backoffMs = min maxBackoffMs (s.backoffMs * 2) := by
  simp only [RateLimiter.recordRateLimitError]
  split <;> rfl

theorem iterate_backoffMs : ∀ (ts : List Int) (s : RateLimiter),
    s.backoffMs ≤ maxBackoffMs →
    (iterateRateLimitErrors s ts).backoffMs
      = min maxBackoffMs (s.backoffMs * 2 ^ ts.length) := by
  intro ts
  induction ts with
  | nil =>
    intro s h
    simp only [iterateRateLimitErrors, List.length_nil, pow_zero, Nat.mul_one]
    omega
  | cons t ts ih =>
    intro s h
    rw [iterateRateLimitErrors]
    rw [ih _ (by rw [recordRateLimitError_backoffMs]; omega)]
    rw [recordRateLimitError_backoffMs]
    have h2 : (0 : Nat) < 2 ^ ts.length := pow_pos (by norm_num) _
    rw [List.length_cons, pow_succ]
    rcases le_or_lt (s.backoffMs * 2) maxBackoffMs with hb | hb
    · rw [Nat.min_eq_right hb]
      congr 1
      ring
    · rw [Nat.min_eq_left (le_of_lt hb)]
      have h3 : maxBackoffMs ≤ maxBackoffMs * 2 ^ ts.length :=
        Nat.le_mul_of_pos_right _ h2
      have h4 : maxBackoffMs ≤ s.backoffMs * (2 ^ ts.length * 2) := by
        calc maxBackoffMs ≤ s.backoffMs * 2 := le_of_lt hb
          _ ≤ s.backoffMs * 2 * 2 ^ ts.length := Nat.le_mul_of_pos_right _ h2
          _ = s.backoffMs * (2 ^ ts.length * 2) := by ring
      rw [Nat.min_eq_left h3, Nat.min_eq_left h4]

/-- C4 counterexample: `recordRateLimitError` doubles the backoff already on
the FIRST error (RateLimiter.ts line 62), so three consecutive calls from a
fresh limiter leave the backoff at 8000ms, not 4000ms: the observed sequence
after each call is 2000, 4000, 8000. -/
theorem C4_cex_backoff_after_three_errors :
    (iterateRateLimitErrors RateLimiter.new [0, 0, 0]).getBackoffTime = 8000 ∧
    (iterateRateLimitErrors RateLimiter.new [0, 0, 0]).getBackoffTime ≠ 4000 := by
  decide

/-- C4 amended: the backoff starts at 1000ms and each `recordRateLimitError`
doubles it, capped at the configured maximum 10000ms, so after `k` consecutive
errors from a fresh limiter it equals `min 10000 (1000·2^k)` — in particular
the backoff in effect entering calls 1, 2, 3 is 1000→2000→4000, the value
after them 2000→4000→8000 — and a single `recordSuccess()` resets it to
1000ms. -/
theorem C4_amended_backoff_doubling :
    RateLimiter.new.getBackoffTime = 1000 ∧
    (∀ ts : List Int,
      (iterateRateLimitErrors RateLimiter.new ts).getBackoffTime
        = min 10000 (1000 * 2 ^ ts.length)) ∧
    (∀ (s : RateLimiter) (now : Int), (s.recordSuccess now).getBackoffTime = 1000) := by
  refine ⟨rfl, ?_, ?_⟩
  · intro ts
    have h := iterate_backoffMs ts RateLimiter.new (by norm_num [RateLimiter.new, maxBackoffMs])
    rw [RateLimiter.getBackoffTime, h]
    norm_num [RateLimiter.new, maxBackoffMs]
  · intro s now
    rfl

theorem recordRateLimitError_toast_true (s : RateLimiter) (now : Int)
    (h : toastIntervalMs < now - s.lastToastTime) :
    (s.recordRateLimitError now).2 = true ∧
    (s.recordRateLimitError now).1.lastToastTime = now := by
  simp only [RateLimiter.recordRateLimitError]
  rw [if_pos h]
  exact ⟨rfl, rfl⟩

theorem recordRateLimitError_toast_false (s : RateLimiter) (now : Int)
    (h : ¬ toastIntervalMs < now - s.lastToastTime) :
    (s.recordRateLimitError now).2 = false ∧
    (s.recordRateLimitError now).1.lastToastTime = s.lastToastTime := by
  simp only [RateLimiter.recordRateLimitError]
  rw [if_neg h]
  exact ⟨rfl, rfl⟩

/-- The call times at which a sequence of consecutive `recordRateLimitError`
calls returns true (i.e. grants a user-facing notification). -/
def toastTimes (s : RateLimiter) : List Int → List Int
  | [] => []
  | t :: ts =>
    if (s.recordRateLimitError t).2 then
      t :: toastTimes (s.recordRateLimitError t).1 ts
    else toastTimes (s.recordRateLimitError t).1 ts

theorem toastTimes_gap : ∀ (ts : List Int) (s : RateLimiter),
    (∀ u ∈ toastTimes s ts, s.lastToastTime + toastIntervalMs < u) ∧
    (toastTimes s ts).Chain' (fun a b => a + toastIntervalMs < b) := by
  intro ts
  induction ts with
  | nil =>
    intro s
    constructor
    · intro u hu
      simp [toastTimes] at hu
    · simp [toastTimes]
  | cons t ts ih =>
    intro s
    have hpos : (0 : Int) < toastIntervalMs := by norm_num [toastIntervalMs]
    by_cases h : toastIntervalMs < t - s.lastToastTime
    · have hT := recordRateLimitError_toast_true s t h
      rw [toastTimes, if_pos hT.1]
      have ihs := ih (s.recordRateLimitError t).1
      have he := hT.2
      constructor
      · intro u hu
        rcases List.mem_cons.mp hu with rfl | hu
        · omega
        · have h2 := ihs.1 u hu
          omega
      · apply List.Chain'.cons'
        · exact ihs.2
        · intro y hy
          have hy' : y ∈ toastTimes (s.recordRateLimitError t).1 ts :=
            List.mem_of_mem_head? hy
          have h2 := ihs.1 y hy'
          omega
    · have hF := recordRateLimitError_toast_false s t h
      rw [toastTimes, if_neg (by simp [hF.1])]
      have ihs := ih (s.recordRateLimitError t).1
      have he := hF.2
      constructor
      · intro u hu
        have h2 := ihs.1 u hu
        omega
      · exact ihs.2

/-- C6: on a rate-limited (429) response the dispatcher applies
`rateLimiter.recordRateLimitError()` and invokes the transcript callback with
the sentinel `"__RATE_LIMIT_ERROR__"` exactly when that call returned true,
returning normally rather than throwing (AudioProcessor.ts lines 149-161);
and across any sequence of 429 responses, notification-granting calls are
separated by strictly more than `toastIntervalMs` (default 10s), so at most
one notification is emitted per interval. -/
theorem C6_429_sentinel_notification (s : AudioProcessor) (rl : RateLimiter)
    (now : Int) (r : TranscribeResponse)
    (h429 : is429 r = true) (hcb : s.onTranscriptionCallback = true) :
    (s.processAudioChunk rl now r).2.1 = (rl.recordRateLimitError now).1 ∧
    ((s.processAudioChunk rl now r).2.2
      = if (rl.recordRateLimitError now).2 then
          [DispatchEvent.rateLimitErrorRecorded true,
           DispatchEvent.callbackInvoked RATE_LIMIT_ERROR_MARKER]
        else [DispatchEvent.rateLimitErrorRecorded false]) ∧
    (∀ (ts : List Int) (s0 : RateLimiter),
      (toastTimes s0 ts).Chain' (fun a b => a + toastIntervalMs < b)) := by
  refine ⟨?_, ?_, ?_⟩
  · rw [AudioProcessor.processAudioChunk, if_pos h429]
  · rw [AudioProcessor.processAudioChunk, if_pos h429]
    cases hN : (rl.recordRateLimitError now).2
    · simp [hN, hcb]
    · simp [hN, hcb]
  · intro ts s0
    exact (toastTimes_gap ts s0).2

theorem C6_429_sentinel_notification_witness :
    is429 ⟨none, some 429, none⟩ = true ∧
    ((AudioProcessor.new true).processAudioChunk RateLimiter.new 20000
        ⟨none, some 429, none⟩).2.2
      = [DispatchEvent.rateLimitErrorRecorded true,
         DispatchEvent.callbackInvoked RATE_LIMIT_ERROR_MARKER] := by
  have h := C6_429_sentinel_notification (AudioProcessor.new true) RateLimiter.new
    20000 ⟨none, some 429, none⟩ (by decide) rfl
  refine ⟨by decide, ?_⟩
  rw [h.2.1]
  decide

theorem processAudioChunk_events_no429 (s : AudioProcessor) (rl : RateLimiter)
    (now : Int) (r : TranscribeResponse)
    (h429 : is429 r = false) (h400 : is400 r = false) :
    (s.processAudioChunk rl now r).2.2
      = forwardText s.onTranscriptionCallback (dataText r) := by
  rw [AudioProcessor.processAudioChunk, if_neg (by simp [h429]),
      if_neg (by simp [h400])]
  by_cases h : r.errMsg.isSome = true
  · rw [if_pos h]
  · rw [if_neg h]

/-- A dispatch cycle ready to go: one buffered chunk, no prior error, callback
present. -/
def c5FailState : AudioProcessor :=
  { recordedChunks := [⟨100, 0⟩], chunkCounter := 1, processingError := false,
    onTranscriptionCallback := true }

/-- A failed remote call: `error` set (message without 429/400), no data. -/
def c5FailResponse : TranscribeResponse := ⟨some "boom".toList, none, none⟩

/-- C5 counterexample: `processChunksIfReady` calls
`rateLimiter.recordSuccess()` BEFORE the remote call (AudioProcessor.ts line
87), unconditionally, so a dispatch whose remote call fails (error response,
no text) still records a success on the rate limiter — `lastCallTime` is
stamped and the backoff reset — while nothing is forwarded to the callback. -/
theorem C5_cex_success_recorded_on_failure :
    c5FailResponse.errMsg.isSome = true ∧
    dataText c5FailResponse = none ∧
    (c5FailState.processChunksIfReady RateLimiter.new MAX_CHUNKS 2000
        c5FailResponse).2.1 = [DispatchEvent.successRecorded] ∧
    (c5FailState.processChunksIfReady RateLimiter.new MAX_CHUNKS 2000
        c5FailResponse).1.2.lastCallTime = 2000 := by decide

/-- C5 amended: in every dispatch cycle that passes the rate-limiter gate and
has at least one buffered chunk, `rateLimiter.recordSuccess()` is invoked
before the remote call, regardless of the call's outcome; the fragment is
forwarded to the transcript callback exactly when the response is neither
rate-limited nor a bad-payload rejection and carries non-empty text (an
errored response with text attached is still forwarded, lines 175-185). -/
theorem C5_amended_success_recorded_before_call (s : AudioProcessor)
    (rl : RateLimiter) (maxChunks : Nat) (now : Int) (r : TranscribeResponse)
    (hcan : rl.canMakeCall now = true)
    (hne : ¬ (s.recordedChunks.length = 0)) :
    DispatchEvent.successRecorded ∈ (s.processChunksIfReady rl maxChunks now r).2.1 ∧
    (is429 r = false → is400 r = false →
      (s.processChunksIfReady rl maxChunks now r).2.1
        = DispatchEvent.successRecorded ::
            forwardText s.onTranscriptionCallback (dataText r)) := by
  rw [processChunksIfReady_run s rl maxChunks now r hcan hne]
  simp only
  constructor
  · exact List.mem_cons_self _ _
  · intro h429 h400
    rw [processAudioChunk_events_no429 _ _ _ _ h429 h400]
    congr 2
    cases hpe : s.processingError <;>
      simp [hpe, apply_ite (fun x : AudioProcessor => x.onTranscriptionCallback)]

/-- A dispatch cycle whose remote call will succeed with text `"hi"`. -/
def c5OkState : AudioProcessor :=
  { recordedChunks := [⟨50, 1⟩], chunkCounter := 1, processingError := false,
    onTranscriptionCallback := true }

def c5OkResponse : TranscribeResponse := ⟨none, none, some "hi".toList⟩

theorem C5_amended_success_recorded_before_call_witness :
    RateLimiter.new.canMakeCall 5000 = true ∧
    (c5OkState.processChunksIfReady RateLimiter.new 40 5000 c5OkResponse).2.1
      = [DispatchEvent.successRecorded, DispatchEvent.callbackInvoked "hi".toList] := by
  have h := C5_amended_success_recorded_before_call c5OkState RateLimiter.new
    40 5000 c5OkResponse (by decide) (by decide)
  refine ⟨by decide, ?_⟩
  have h2 := h.2 (by decide) (by decide)
  exact h2.trans (by decide)

/-- The fields of the `AudioRecorder` class relevant to the stop semantics
(`src/unnamed/part_002` lines 450-464): whether the dispatch interval timer is
set, whether the recorder still holds its callbacks, and the recorder's
reference to its `AudioProcessor`.  The device handles (media recorder,
stream, script processor, dummy generator) are also torn down by
`stopRecording` but play no role in the claim. -/
structure AudioRecorder where
  isRecording : Bool
  transcriptionInterval : Bool
  onAudioDataCallback : Bool
  onTranscriptionCallback : Bool
  audioChunkProcessor : Option AudioProcessor
deriving DecidableEq

/-- Outcome of `startRecording(onAudioData, onTranscription)` (lines 528-626)
on the successful-microphone path: both callbacks installed, a fresh
`AudioProcessor` constructed with the transcription callback (line 538), the
transcription interval timer installed (line 610). -/
def AudioRecorder.startRecording : AudioRecorder :=
  { isRecording := true, transcriptionInterval := true,
    onAudioDataCallback := true, onTranscriptionCallback := true,
    audioChunkProcessor := some (AudioProcessor.new true) }

/-- `stopRecording()` (lines 660-697): flips `isRecording`, clears the
interval timer (`clearInterval`, lines 687-691) and nulls the recorder's own
callback references and its `audioChunkProcessor` reference (lines 693-695).
It mutates only the recorder: the `AudioProcessor` object — which a pending
`processAudioChunk` promise still references through its closure — is not
touched, and in particular the callback captured by its constructor is not
cleared, nor does any active/epoch flag exist for the promise to check. -/
def AudioRecorder.stopRecording (s : AudioRecorder) : AudioRecorder :=
  { s with isRecording := false, transcriptionInterval := false,
           onAudioDataCallback := false, onTranscriptionCallback := false,
           audioChunkProcessor := none }

/-- C7 (code bug): `stopRecording()` does cancel the pending dispatch timer,
and it nulls the recorder's callback references — visibly trying to stop
further deliveries — but a transcription network call in flight at the moment
of stop is NOT discarded: `processAudioChunk` consults no active/epoch flag,
and the `AudioProcessor` the pending promise runs on still holds the
constructor-captured callback, so when the response arrives the transcript
callback is invoked after `stopRecording` has returned. -/
theorem C7_bug_inflight_result_delivered_after_stop :
    AudioRecorder.startRecording.stopRecording.transcriptionInterval = false ∧
    AudioRecorder.startRecording.stopRecording.onTranscriptionCallback = false ∧
    AudioRecorder.startRecording.stopRecording.audioChunkProcessor = none ∧
    (AudioProcessor.new true).onTranscriptionCallback = true ∧
    ((AudioProcessor.new true).processAudioChunk RateLimiter.new 0
        ⟨none, none, some "hi".toList⟩).2.2
      = [DispatchEvent.callbackInvoked "hi".toList] := by decide
